import Mathlib

/-!
Verification of the EchoPy audio-capture pipeline specification against a
shallow embedding of the source (src/src/audio_processor.py, src/src/utils.py).

Numpy float32 arrays are modelled as lists over a linear ordered field
(instantiated at ℚ for computation and at ℝ where transcendental functions
appear); the exact-arithmetic model captures the algebraic structure of the
code's per-entry operations.
-/

set_option maxHeartbeats 1000000

namespace EchoPy

section Helpers

variable {α : Type} {β : Type} {γ : Type}

/-- Pointwise congruence for zipWith, proved by simultaneous induction. -/
theorem zipWith_ext (f g : α → β → γ) (h : ∀ a b, f a b = g a b) :
    ∀ (l1 : List α) (l2 : List β), List.zipWith f l1 l2 = List.zipWith g l1 l2
  | [], _ => rfl
  | _ :: _, [] => rfl
  | a :: l1, b :: l2 => by
    simp only [List.zipWith_cons_cons, h a b, zipWith_ext f g h l1 l2]

/-- Keeping only the left argument in a zipWith over equal-length lists
returns the left list. -/
theorem zipWith_left_id :
    ∀ (l1 : List α) (l2 : List β), l1.length = l2.length →
      List.zipWith (fun a _ => a) l1 l2 = l1
  | [], [], _ => rfl
  | a :: l1, b :: l2, h => by
    simp only [List.zipWith_cons_cons]
    exact congrArg (a :: ·) (zipWith_left_id l1 l2 (by simpa using h))

/-- Keeping only the right argument in a zipWith over equal-length lists
returns the right list. -/
theorem zipWith_right_id :
    ∀ (l1 : List α) (l2 : List β), l1.length = l2.length →
      List.zipWith (fun _ b => b) l1 l2 = l2
  | [], [], _ => rfl
  | a :: l1, b :: l2, h => by
    simp only [List.zipWith_cons_cons]
    exact congrArg (b :: ·) (zipWith_right_id l1 l2 (by simpa using h))

/-- Element access through getD commutes with zipWith at in-range indices. -/
theorem zipWith_getD {α β γ : Type} (f : α → β → γ) (d1 : α) (d2 : β) (d3 : γ) :
    ∀ (l1 : List α) (l2 : List β) (i : ℕ), i < l1.length → i < l2.length →
      (List.zipWith f l1 l2).getD i d3 = f (l1.getD i d1) (l2.getD i d2)
  | _ :: _, _ :: _, 0, _, _ => rfl
  | _ :: l1, _ :: l2, Nat.succ i, h1, h2 =>
      zipWith_getD f d1 d2 d3 l1 l2 i (Nat.lt_of_succ_lt_succ h1) (Nat.lt_of_succ_lt_succ h2)
  | [], _, _, h1, _ => absurd h1 (by simp)
  | _ :: _, [], _, _, h2 => absurd h2 (by simp)

/-- Element access through getD commutes with map at in-range indices. -/
theorem getD_of_map {α γ : Type} (f : α → γ) (d : α) (e : γ) :
    ∀ (l : List α) (i : ℕ), i < l.length → (l.map f).getD i e = f (l.getD i d)
  | _ :: _, 0, _ => rfl
  | _ :: l, Nat.succ i, h => getD_of_map f d e l i (Nat.lt_of_succ_lt_succ h)
  | [], _, h => absurd h (by simp)

end Helpers

/-- Model of clamp from src/src/utils.py: max(min_val, min(max_val, value)). -/
def clamp {α : Type} [LinearOrder α] (value minVal maxVal : α) : α :=
  max minVal (min maxVal value)

section Filters

variable {α : Type} [LinearOrderedField α]

/-- Model of class SmoothingBuffer (src/src/utils.py): exponential moving
average smoother.  The size attribute is carried implicitly as the length of
the buffer. -/
structure SmoothingBuffer (α : Type) where
  smoothing : α
  buffer : List α

/-- Constructor of SmoothingBuffer: smoothing clamped to [0, 1], buffer of
zeros. -/
def SmoothingBuffer.init (size : ℕ) (smoothing : α) : SmoothingBuffer α :=
  { smoothing := max 0 (min 1 smoothing), buffer := List.replicate size 0 }

/-- Model of SmoothingBuffer.update: on a length mismatch the buffer is reset
to zeros of the new length, then the vectorised blend
buffer * smoothing + new * (1 - smoothing) is stored and returned. -/
def SmoothingBuffer.update (st : SmoothingBuffer α) (values : List α) :
    SmoothingBuffer α × List α :=
  let buf := if values.length = st.buffer.length then st.buffer
             else List.replicate values.length (0 : α)
  let newBuf := List.zipWith (fun b v => b * st.smoothing + v * (1 - st.smoothing)) buf values
  ({ st with buffer := newBuf }, newBuf)

/-- Model of SmoothingBuffer.set_smoothing: clamp the new factor into [0, 1]. -/
def SmoothingBuffer.set_smoothing (st : SmoothingBuffer α) (s : α) : SmoothingBuffer α :=
  { st with smoothing := max 0 (min 1 s) }

/-- Model of class CavaFilter (src/src/utils.py): integral filter plus
gravity fall-off. -/
structure CavaFilter (α : Type) where
  integral_weight : α
  gravity : α
  prev_values : List α
  integral_buffer : List α

/-- Constructor of CavaFilter: both state buffers start at zeros. -/
def CavaFilter.init (size : ℕ) (w g : α) : CavaFilter α :=
  { integral_weight := w, gravity := g,
    prev_values := List.replicate size 0,
    integral_buffer := List.replicate size 0 }

/-- Model of CavaFilter.update: reset both buffers on a length mismatch, then
integral = values * (1 - w) + integral * w, then the fall-off
output[i] = if integral[i] < prev[i] - gravity then prev[i] - gravity else
integral[i], floored at zero; the output becomes the new prev_values. -/
def CavaFilter.update (st : CavaFilter α) (values : List α) :
    CavaFilter α × List α :=
  let prev := if values.length = st.prev_values.length then st.prev_values
              else List.replicate values.length (0 : α)
  let integ := if values.length = st.prev_values.length then st.integral_buffer
               else List.replicate values.length (0 : α)
  let integ2 := List.zipWith (fun v i => v * (1 - st.integral_weight) + i * st.integral_weight)
      values integ
  let out0 := List.zipWith (fun i p => if i < p - st.gravity then p - st.gravity else i)
      integ2 prev
  let out := out0.map (fun x => max 0 x)
  ({ st with prev_values := out, integral_buffer := integ2 }, out)

/-- Model of CavaFilter.set_smoothing: map the generic 0-1 knob onto the
integral weight through clamp(s, 0.1, 0.95). -/
def CavaFilter.set_smoothing (st : CavaFilter α) (s : α) : CavaFilter α :=
  { st with integral_weight := clamp s (1/10) (19/20) }

/-- Model of CavaFilter.set_gravity. -/
def CavaFilter.set_gravity (st : CavaFilter α) (g : α) : CavaFilter α :=
  { st with gravity := g }

end Filters

section FilterTheorems

variable {α : Type} [LinearOrderedField α]

/-- C7: after set_smoothing(0.0) the exponential filter's update returns its
input unchanged, and after set_smoothing(1.0) it returns the prior state
unchanged, for any input vector of the current state length. -/
theorem c7_sb_smoothing_extremes (st : SmoothingBuffer α) (x : List α)
    (hlen : x.length = st.buffer.length) :
    ((st.set_smoothing 0).update x).2 = x ∧
    ((st.set_smoothing 1).update x).2 = st.buffer := by
  constructor
  · show List.zipWith _ (if x.length = st.buffer.length then st.buffer else _) x = x
    rw [if_pos hlen]
    have hs : max (0 : α) (min 1 0) = 0 := by
      rw [min_eq_right (zero_le_one), max_self]
    simp only [SmoothingBuffer.set_smoothing, hs]
    rw [zipWith_ext _ (fun _ b => b) (fun a b => by ring)]
    exact zipWith_right_id st.buffer x hlen.symm
  · show List.zipWith _ (if x.length = st.buffer.length then st.buffer else _) x = st.buffer
    rw [if_pos hlen]
    have hs : max (0 : α) (min 1 1) = 1 := by
      rw [min_self, max_eq_right (zero_le_one)]
    simp only [SmoothingBuffer.set_smoothing, hs]
    rw [zipWith_ext _ (fun a _ => a) (fun a b => by ring)]
    exact zipWith_left_id st.buffer x hlen.symm

/-- Witness for C7 at a concrete state and input. -/
theorem c7_sb_smoothing_extremes_witness :
    ([(3 : ℚ), 5].length = (SmoothingBuffer.mk (1/2) [2, 7] : SmoothingBuffer ℚ).buffer.length) ∧
    (((SmoothingBuffer.mk (1/2) [2, 7] : SmoothingBuffer ℚ).set_smoothing 0).update [3, 5]).2 = [3, 5] ∧
    (((SmoothingBuffer.mk (1/2) [2, 7] : SmoothingBuffer ℚ).set_smoothing 1).update [3, 5]).2 = [2, 7] :=
  ⟨by decide, c7_sb_smoothing_extremes (SmoothingBuffer.mk (1/2) [2, 7]) [3, 5] (by decide)⟩

/-- Iterated CavaFilter updates with a constant input vector. -/
def cavaIterate {α : Type} [LinearOrderedField α] (st : CavaFilter α) (v : List α) : ℕ → CavaFilter α
  | 0 => st
  | Nat.succ n => ((cavaIterate st v n).update v).1

/-- C8 (amended): both filters preserve the input length; for the exponential
filter with smoothing in [0, 1] each entry's distance to the input is
non-increasing across a call (monotone convergence under constant input); the
gravity filter's entries descend at most the gravity constant per call. -/
theorem c8_filter_convergence (stSB : SmoothingBuffer ℚ) (stCF : CavaFilter ℚ) (x : List ℚ)
    (hs0 : 0 ≤ stSB.smoothing) (hs1 : stSB.smoothing ≤ 1)
    (hWF : stCF.integral_buffer.length = stCF.prev_values.length) :
    ((stSB.update x).2.length = x.length) ∧
    ((stCF.update x).2.length = x.length) ∧
    (∀ i, i < x.length → x.length = stSB.buffer.length →
      |(stSB.update x).2.getD i 0 - x.getD i 0| ≤ |stSB.buffer.getD i 0 - x.getD i 0|) ∧
    (∀ i, i < x.length → x.length = stCF.prev_values.length →
      stCF.prev_values.getD i 0 - stCF.gravity ≤ (stCF.update x).2.getD i 0) := by
  have hbufSB : (if x.length = stSB.buffer.length then stSB.buffer
      else List.replicate x.length (0 : ℚ)).length = x.length := by
    split
    · omega
    · simp
  have hprev : (if x.length = stCF.prev_values.length then stCF.prev_values
      else List.replicate x.length (0 : ℚ)).length = x.length := by
    split
    · omega
    · simp
  have hinteg : (if x.length = stCF.prev_values.length then stCF.integral_buffer
      else List.replicate x.length (0 : ℚ)).length = x.length := by
    split
    · omega
    · simp
  refine ⟨?_, ?_, ?_, ?_⟩
  · simp only [SmoothingBuffer.update, List.length_zipWith, hbufSB, min_self]
  · simp only [CavaFilter.update, List.length_map, List.length_zipWith, hprev, hinteg,
      min_self]
  · intro i hi hlen
    show |(List.zipWith _ (if x.length = stSB.buffer.length then stSB.buffer else _) x).getD i 0
          - x.getD i 0| ≤ _
    rw [if_pos hlen]
    rw [zipWith_getD _ 0 0 0 stSB.buffer x i (by omega) hi]
    have hkey : stSB.buffer.getD i 0 * stSB.smoothing
        + x.getD i 0 * (1 - stSB.smoothing) - x.getD i 0
        = stSB.smoothing * (stSB.buffer.getD i 0 - x.getD i 0) := by ring
    rw [hkey, abs_mul, abs_of_nonneg hs0]
    calc stSB.smoothing * |stSB.buffer.getD i 0 - x.getD i 0|
        ≤ 1 * |stSB.buffer.getD i 0 - x.getD i 0| :=
          mul_le_mul_of_nonneg_right hs1 (abs_nonneg _)
      _ = _ := one_mul _
  · intro i hi hlen
    show _ ≤ ((List.zipWith _
        (List.zipWith _ x (if x.length = stCF.prev_values.length then stCF.integral_buffer else _))
        (if x.length = stCF.prev_values.length then stCF.prev_values else _)).map
          (fun x => max 0 x)).getD i 0
    rw [if_pos hlen, if_pos hlen]
    have hi2 : i < (List.zipWith
        (fun v j => v * (1 - stCF.integral_weight) + j * stCF.integral_weight)
        x stCF.integral_buffer).length := by
      rw [List.length_zipWith]; omega
    have hiz : i < (List.zipWith
        (fun j p => if j < p - stCF.gravity then p - stCF.gravity else j)
        (List.zipWith (fun v j => v * (1 - stCF.integral_weight) + j * stCF.integral_weight)
          x stCF.integral_buffer) stCF.prev_values).length := by
      rw [List.length_zipWith, List.length_zipWith]; omega
    rw [getD_of_map _ 0 0 _ i hiz]
    rw [zipWith_getD _ 0 0 0 _ stCF.prev_values i hi2 (by omega)]
    refine le_trans ?_ (le_max_right 0 _)
    split
    · exact le_refl _
    · next h => exact le_of_not_lt h

/-- Witness for C8 (amended) at a concrete pair of filter states. -/
theorem c8_filter_convergence_witness :
    (0 ≤ (SmoothingBuffer.mk 0 [2, 7] : SmoothingBuffer ℚ).smoothing
      ∧ (SmoothingBuffer.mk 0 [2, 7] : SmoothingBuffer ℚ).smoothing ≤ 1
      ∧ (CavaFilter.mk (7/10) (3/100) [1, 0] [0, 0] : CavaFilter ℚ).integral_buffer.length
          = (CavaFilter.mk (7/10) (3/100) [1, 0] [0, 0] : CavaFilter ℚ).prev_values.length) ∧
    (((SmoothingBuffer.mk 0 [2, 7] : SmoothingBuffer ℚ).update [3, 5]).2.length
        = [(3 : ℚ), 5].length) ∧
    (((CavaFilter.mk (7/10) (3/100) [1, 0] [0, 0] : CavaFilter ℚ).update [3, 5]).2.length
        = [(3 : ℚ), 5].length) :=
  ⟨⟨by simp, by simp, by simp⟩,
    (c8_filter_convergence (SmoothingBuffer.mk 0 [2, 7])
      (CavaFilter.mk (7/10) (3/100) [1, 0] [0, 0]) [3, 5]
      (by simp) (by simp) (by simp)).1,
    (c8_filter_convergence (SmoothingBuffer.mk 0 [2, 7])
      (CavaFilter.mk (7/10) (3/100) [1, 0] [0, 0]) [3, 5]
      (by simp) (by simp) (by simp)).2.1⟩

/-- C8 counterexample: with the default parameters (integral weight 0.7,
gravity 0.03) a falling entry does not reach a constant input within the
bounded number of calls the claim allows.  Starting from output 3/10 and
feeding the constant input 1/10 (distance 1/5, so at most ceil((1/5)/(3/100))
= 7 calls at one gravity step each), the output is still strictly above the
input after 8 calls: the integral stage approaches a constant input only
asymptotically and never attains it here. -/
theorem c8_counterexample :
    (1/10 : ℚ) <
      (cavaIterate (((CavaFilter.init 1 (7/10) (3/100) : CavaFilter ℚ).update [1]).1)
        [1/10] 8).prev_values.getD 0 0 ∧
    (cavaIterate (((CavaFilter.init 1 (7/10) (3/100) : CavaFilter ℚ).update [1]).1)
        [1/10] 8).prev_values ≠ [1/10] := by
  norm_num [cavaIterate, CavaFilter.update, CavaFilter.init]

end FilterTheorems

section Devices

/-- Model of a sounddevice device record as consumed by audio_processor.py:
display name, host-api index, channel counts and default sample rate. -/
structure DeviceInfo where
  name : String
  hostapi : ℕ
  max_input_channels : ℕ
  max_output_channels : ℕ
  default_samplerate : ℕ
deriving DecidableEq

/-- Test whether the first character list begins with the second. -/
def headMatch : List Char → List Char → Bool
  | _, [] => true
  | [], _ :: _ => false
  | a :: hay, b :: nee => a == b && headMatch hay nee

/-- Model of the Python substring operator (needle in hay) on character
lists. -/
def occursIn (needle : List Char) : List Char → Bool
  | [] => needle.isEmpty
  | a :: t => headMatch (a :: t) needle || occursIn needle t

/-- Model of the Python substring operator on strings. -/
def strIn (needle hay : String) : Bool := occursIn needle.data hay.data

/-- Model of str.lower restricted to the ASCII range, matching how the code
lowercases device names before keyword matching. -/
def lowerStr (s : String) : String := String.mk (s.data.map Char.toLower)

/-- Keyword list valid_keywords of AudioProcessor.get_devices. -/
def valid_keywords : List String :=
  ["stereo mix", "what u hear", "loopback", "wave out", "waveout", "monitor"]

/-- Keyword list exclude_keywords of AudioProcessor.get_devices. -/
def exclude_keywords : List String :=
  ["mic", "microphone", "input", "headset", "webcam", "line in"]

/-- Model of the per-device eligibility test of AudioProcessor.get_devices:
start from whether a valid keyword occurs in the lowercased name, veto on an
excluded keyword unless the name contains the exact phrase stereo mix, and
finally require a strictly positive input-channel count. -/
def isValidSystemAudio (device : DeviceInfo) : Bool :=
  let device_name := lowerStr device.name
  let v0 := valid_keywords.any (fun kw => strIn kw device_name)
  let v1 := if exclude_keywords.any (fun kw => strIn kw device_name) then
              (if strIn "stereo mix" device_name then v0 else false)
            else v0
  if device.max_input_channels ≤ 0 then false else v1

/-- Model of the fallback eligibility test of AudioProcessor.get_devices:
any device with an input channel whose name avoids every excluded keyword. -/
def isFallbackInput (device : DeviceInfo) : Bool :=
  let device_name := lowerStr device.name
  0 < device.max_input_channels &&
    !(exclude_keywords.any (fun kw => strIn kw device_name))

/-- Model of AudioProcessor.get_devices: indices passing the system-audio
test, or, when none do, indices passing the fallback test. -/
def get_devices (devices : List DeviceInfo) : List ℕ :=
  let primary := (devices.enum.filter (fun p => isValidSystemAudio p.2)).map (fun p => p.1)
  if primary.isEmpty then
    (devices.enum.filter (fun p => isFallbackInput p.2)).map (fun p => p.1)
  else primary

end Devices

section ClassifierTheorems

/-- C3 counterexample: the device Stereo Mix (Realtek Audio) with two input
channels and zero output channels is eligible (classified SystemAudio), even
though as a loopback-style device the claim's eligibility condition would
require at least one output channel; output channels are never consulted. -/
theorem c3_counterexample :
    isValidSystemAudio (DeviceInfo.mk "Stereo Mix (Realtek Audio)" 0 2 0 44100) = true ∧
    (DeviceInfo.mk "Stereo Mix (Realtek Audio)" 0 2 0 44100).max_output_channels = 0 :=
  ⟨rfl, rfl⟩

/-- C3 (amended): a device is classified SystemAudio exactly when a valid
keyword (stereo mix, what u hear, loopback, wave out, waveout, monitor)
occurs in its lowercased name, any excluded keyword (mic, microphone, input,
headset, webcam, line in) is overridden by the exact phrase stereo mix, and
the device reports at least one input channel; output channels are never
consulted.  The three spec examples follow: Stereo Mix (Realtek Audio) is
SystemAudio, Microphone Array is not, Headset Stereo Mix is SystemAudio. -/
theorem c3_classifier_characterisation :
    (∀ d : DeviceInfo,
      isValidSystemAudio d = true ↔
        (valid_keywords.any (fun kw => strIn kw (lowerStr d.name)) = true ∧
         (exclude_keywords.any (fun kw => strIn kw (lowerStr d.name)) = true →
            strIn "stereo mix" (lowerStr d.name) = true) ∧
         0 < d.max_input_channels)) ∧
    isValidSystemAudio (DeviceInfo.mk "Stereo Mix (Realtek Audio)" 0 2 0 44100) = true ∧
    isValidSystemAudio (DeviceInfo.mk "Microphone Array" 0 2 0 44100) = false ∧
    isValidSystemAudio (DeviceInfo.mk "Headset Stereo Mix" 0 2 0 44100) = true := by
  refine ⟨?_, rfl, rfl, rfl⟩
  intro d
  unfold isValidSystemAudio
  constructor
  · intro h
    by_cases hin : d.max_input_channels ≤ 0
    · rw [if_pos hin] at h
      exact absurd h (by simp)
    · rw [if_neg hin] at h
      refine ⟨?_, ?_, by omega⟩
      · by_cases hex : exclude_keywords.any (fun kw => strIn kw (lowerStr d.name)) = true
        · rw [if_pos hex] at h
          by_cases hsm : strIn "stereo mix" (lowerStr d.name) = true
          · rwa [if_pos hsm] at h
          · rw [if_neg hsm] at h
            exact absurd h (by simp)
        · rwa [if_neg hex] at h
      · intro hex
        rw [if_pos hex] at h
        by_cases hsm : strIn "stereo mix" (lowerStr d.name) = true
        · exact hsm
        · rw [if_neg hsm] at h
          exact absurd h (by simp)
  · rintro ⟨hv, hov, hin⟩
    rw [if_neg (by omega)]
    by_cases hex : exclude_keywords.any (fun kw => strIn kw (lowerStr d.name)) = true
    · rw [if_pos hex, if_pos (hov hex)]
      exact hv
    · rw [if_neg hex]
      exact hv

/-- Witness for C3 (amended): the characterisation applied to a concrete
device. -/
theorem c3_classifier_characterisation_witness :
    isValidSystemAudio (DeviceInfo.mk "Stereo Mix (Realtek Audio)" 1 2 0 44100) = true ↔
      (valid_keywords.any (fun kw =>
          strIn kw (lowerStr "Stereo Mix (Realtek Audio)")) = true ∧
       (exclude_keywords.any (fun kw =>
          strIn kw (lowerStr "Stereo Mix (Realtek Audio)")) = true →
          strIn "stereo mix" (lowerStr "Stereo Mix (Realtek Audio)") = true) ∧
       0 < (DeviceInfo.mk "Stereo Mix (Realtek Audio)" 1 2 0 44100).max_input_channels) :=
  c3_classifier_characterisation.1 (DeviceInfo.mk "Stereo Mix (Realtek Audio)" 1 2 0 44100)

end ClassifierTheorems

section Negotiator

/-- Environment of a sounddevice session: the host-api table, the device
table, the index of the default output device, the record returned when
querying the default (None) device, and an oracle telling which (device,
channels, rate) stream-open attempts succeed.  PyAudioWPatch is represented
by an oracle as well since its internals live outside this repository. -/
structure SdEnv where
  hostapis : List String
  devices : List DeviceInfo
  defaultOutputIndex : ℕ
  defaultDevice : Option DeviceInfo
  openOk : Option ℕ → ℕ → ℕ → Bool
  hasPAW : Bool
  pawStart : Option (ℕ × ℕ × ℕ)

/-- Name of a host api by index, empty when out of range. -/
def hostName (env : SdEnv) (i : ℕ) : String := env.hostapis.getD i ""

/-- Model of sd.query_devices (None queries the default input device). -/
def queryDevice (env : SdEnv) : Option ℕ → Option DeviceInfo
  | some i => env.devices.get? i
  | none => env.defaultDevice

/-- Descending sort, modelling Python sorted(..., reverse=True). -/
def sortDesc (l : List ℕ) : List ℕ := List.insertionSort (· ≥ ·) l

/-- WASAPI-loopback test of _start_sounddevice: host api named Windows
WASAPI and no input channels. -/
def isWasapiLoopback (env : SdEnv) (d : DeviceInfo) : Bool :=
  hostName env d.hostapi == "Windows WASAPI" && d.max_input_channels == 0

/-- Channel candidates of _start_sounddevice: the distinct positive values
among the base channel count (output channels for a WASAPI render device,
input channels otherwise), 2 and 1, in descending order. -/
def chanCandidates (env : SdEnv) (d : DeviceInfo) : List ℕ :=
  sortDesc (([if isWasapiLoopback env d then d.max_output_channels
              else d.max_input_channels, 2, 1].filter (fun c => decide (0 < c))).dedup)

/-- Sample-rate candidates of _start_sounddevice: the distinct values among
the device's default sample rate, 48000 and 44100, in descending order. -/
def rateCandidates (d : DeviceInfo) : List ℕ :=
  sortDesc ([d.default_samplerate, 48000, 44100].dedup)

/-- Attempt list of _start_sounddevice for one device: every channel
candidate paired with every rate candidate, channels outermost. -/
def attemptsFor (env : SdEnv) (d : DeviceInfo) : List (ℕ × ℕ) :=
  ((chanCandidates env d).map (fun c => (rateCandidates d).map (fun r => (c, r)))).flatten

/-- Ordered probing loop shared by the negotiation loops: try each element
until the predicate accepts one, returning the list of elements actually
tried together with the first success. -/
def probeRun {A : Type} (ok : A → Bool) : List A → List A × Option A
  | [] => ([], none)
  | a :: rest =>
    if ok a then ([a], some a)
    else
      let r := probeRun ok rest
      (a :: r.1, r.2)

/-- Result of probeRun is the first element accepted by the predicate. -/
theorem probeRun_snd {A : Type} (ok : A → Bool) : ∀ l : List A, (probeRun ok l).2 = l.find? ok
  | [] => rfl
  | a :: rest => by
    cases h : ok a <;>
      simp [probeRun, h, probeRun_snd ok rest]

/-- On success, the elements probeRun actually tried are exactly the failing
ones before the first success, followed by that success; nothing after it is
attempted. -/
theorem probeRun_fst {A : Type} (ok : A → Bool) :
    ∀ (l : List A) (a : A), (probeRun ok l).2 = some a →
      (probeRun ok l).1 = l.takeWhile (fun x => !ok x) ++ [a]
  | [], a, h => by simp [probeRun] at h
  | b :: rest, a, h => by
    cases hb : ok b
    · simp only [probeRun, hb, Bool.false_eq_true, if_false] at h ⊢
      rw [probeRun_fst ok rest a h, List.takeWhile_cons]
      simp [hb]
    · simp only [probeRun, hb, if_true] at h ⊢
      obtain rfl : b = a := by simpa using h
      rw [List.takeWhile_cons]
      simp [hb]

end Negotiator

section NegotiatorTheorems

/-- C2 counterexample: for a 4-input-channel MME device whose default sample
rate is 44100 Hz, the first attempted (channels, rate) pair is (4, 48000) --
the channel count is not clamped to stereo and the canonical rate 48000 is
tried before the device's own default -- not the (2, 44100) the claim
predicts. -/
theorem c2_counterexample :
    (attemptsFor (SdEnv.mk ["MME"] [] 0 none (fun _ _ _ => false) false none)
      (DeviceInfo.mk "Quad Capture" 0 4 0 44100)).head? = some (4, 48000) ∧
    ((4 : ℕ), (48000 : ℕ)) ≠ ((2 : ℕ), (44100 : ℕ)) :=
  ⟨rfl, by simp⟩

/-- C2 (amended): per device the negotiator enumerates channel counts in
descending order over the distinct positive values among the device's base
channel count, 2 and 1 (the base count is not clamped to stereo), and sample
rates in descending order over the distinct values among the default rate,
48000 and 44100 (so 48000 precedes a 44100 default); attempts are probed in
that order and the first success stops all further probing. -/
theorem c2_negotiation_order (env : SdEnv) (d : DeviceInfo)
    (ok : Option ℕ × ℕ × ℕ → Bool) (l : List (Option ℕ × ℕ × ℕ)) (a : Option ℕ × ℕ × ℕ) :
    ((chanCandidates env d).Sorted (· ≥ ·)) ∧
    ((chanCandidates env d).Nodup) ∧
    (∀ c, c ∈ chanCandidates env d ↔
      (c ∈ [if isWasapiLoopback env d then d.max_output_channels
            else d.max_input_channels, 2, 1] ∧ 0 < c)) ∧
    ((rateCandidates d).Sorted (· ≥ ·)) ∧
    ((rateCandidates d).Nodup) ∧
    (∀ r, r ∈ rateCandidates d ↔ r ∈ [d.default_samplerate, 48000, 44100]) ∧
    ((probeRun ok l).2 = l.find? ok) ∧
    ((probeRun ok l).2 = some a → (probeRun ok l).1 = l.takeWhile (fun x => !ok x) ++ [a]) := by
  refine ⟨List.sorted_insertionSort _ _,
    ((List.perm_insertionSort _ _).nodup_iff).mpr (List.nodup_dedup _),
    ?_,
    List.sorted_insertionSort _ _,
    ((List.perm_insertionSort _ _).nodup_iff).mpr (List.nodup_dedup _),
    ?_,
    probeRun_snd ok l,
    probeRun_fst ok l a⟩
  · intro c
    unfold chanCandidates sortDesc
    rw [(List.perm_insertionSort _ _).mem_iff, List.mem_dedup, List.mem_filter]
    simp
  · intro r
    unfold rateCandidates sortDesc
    rw [(List.perm_insertionSort _ _).mem_iff, List.mem_dedup]

/-- Witness for C2 (amended): the first-success-stops clause applied to a
concrete probe. -/
theorem c2_negotiation_order_witness :
    (probeRun (fun _ => true) [((none : Option ℕ), (2 : ℕ), (44100 : ℕ))]).1
      = [((none : Option ℕ), (2 : ℕ), (44100 : ℕ))].takeWhile (fun x => !(fun _ => true) x)
        ++ [((none : Option ℕ), (2 : ℕ), (44100 : ℕ))] :=
  (c2_negotiation_order (SdEnv.mk ["MME"] [] 0 none (fun _ _ _ => false) false none)
    (DeviceInfo.mk "Quad Capture" 0 4 0 44100) (fun _ => true)
    [((none : Option ℕ), (2 : ℕ), (44100 : ℕ))]
    ((none : Option ℕ), (2 : ℕ), (44100 : ℕ))).2.2.2.2.2.2.2 rfl

end NegotiatorTheorems

section Downmix

variable {α : Type} [LinearOrderedField α]

/-- Dot product of two lists, modelling np.dot on vectors. -/
def dotList (a b : List α) : α := (List.zipWith (· * ·) a b).sum

/-- Raw surround weights of _audio_callback: ones, with the centre channel
(index 2) set to 0.7 when at least 3 channels exist and the surround pair
(indices 4 and 5) set to 0.7 when at least 6 channels exist. -/
def downmixWeightsRaw (c : ℕ) : List α :=
  (List.range c).map (fun i =>
    if 3 ≤ c ∧ i = 2 then 7/10
    else if 6 ≤ c ∧ (i = 4 ∨ i = 5) then 7/10
    else 1)

/-- Normalised surround weights of _audio_callback:
weights /= np.sum(weights) / 2. -/
def downmixWeights (c : ℕ) : List α :=
  (downmixWeightsRaw c).map (fun w => w / ((downmixWeightsRaw c : List α).sum / 2))

/-- Model of the downmix stage of _audio_callback on one frame: stereo
averages the two channels, mono is passed through, and any other channel
count uses the weighted dot product. -/
def downmixFrame (frame : List α) : α :=
  if frame.length = 2 then (frame.getD 0 0 + frame.getD 1 0) * (1/2)
  else if frame.length = 1 then frame.getD 0 0
  else dotList frame (downmixWeights frame.length)

end Downmix

section Conditioner

/-- Constant NOISE_FLOOR = 0.00020 of _audio_callback. -/
noncomputable def NOISE_FLOOR : ℝ := 2/10000

/-- Model of the RMS activity computation of _audio_callback: sqrt of the
mean of the squared noise-gated absolute samples. -/
noncomputable def activity_level (xs : List ℝ) : ℝ :=
  Real.sqrt ((xs.map (fun x => max 0 (|x| - NOISE_FLOOR) ^ 2)).sum / xs.length)

/-- Model of np.hanning(n), the window built in __init__. -/
noncomputable def hannWindow (n : ℕ) : List ℝ :=
  (List.range n).map (fun j => 1/2 - 1/2 * Real.cos (2 * Real.pi * j / ((n : ℝ) - 1)))

/-- Bin k of the discrete Fourier transform of xs zero-padded or truncated
to length n, modelling np.fft.rfft(xs, n). -/
noncomputable def rfftBin (xs : List ℝ) (n k : ℕ) : ℂ :=
  ∑ j in Finset.range n,
    ((xs.getD j 0 : ℝ) : ℂ) * Complex.exp (-(2 * Real.pi * j * k / n) * Complex.I)

/-- Normalised magnitude spectrum: np.abs(fft_raw)[: n / 2] * (2 / n). -/
noncomputable def fftMagnitudeRaw (xs : List ℝ) (n : ℕ) : List ℝ :=
  (List.range (n / 2)).map (fun k => Complex.abs (rfftBin xs n k) * (2 / n))

/-- DC removal of _audio_callback: zero the lowest two bins. -/
noncomputable def removeDC (l : List ℝ) : List ℝ := (l.set 0 0).set 1 0

/-- Perceptual compression of _audio_callback: np.log1p(x) * 0.33. -/
noncomputable def logCompress (l : List ℝ) : List ℝ :=
  l.map (fun m => Real.log (1 + m) * (33/100))

/-- User gain and clip of _audio_callback: np.clip(x * (gain / 60), 0, 1). -/
noncomputable def userGainClip (gain : ℝ) (l : List ℝ) : List ℝ :=
  l.map (fun m => max 0 (min 1 (m * (gain / 60))))

/-- Waveform buffer of _audio_callback:
np.clip(audio * 15000 * (gain / 60), -1, 1). -/
noncomputable def audioBufferOf (gain : ℝ) (audio : List ℝ) : List ℝ :=
  audio.map (fun x => max (-1) (min 1 (x * (15000 * (gain / 60)))))

/-- Magnitude-spectrum pipeline of _audio_callback applied to the downmixed
block: window, FFT, normalisation, DC removal, log compression, user gain
and clip -- everything before smoothing. -/
noncomputable def fftPipeline (gain : ℝ) (fftSize : ℕ) (audio window : List ℝ) : List ℝ :=
  userGainClip gain (logCompress (removeDC
    (fftMagnitudeRaw (List.zipWith (· * ·) audio window) fftSize)))

end Conditioner

section Lifecycle

/-- State of AudioProcessor: configuration, signal-processing state and the
stream-ownership fields.  A stream handle is represented by the (device,
channels, rate) configuration it was opened with. -/
structure AudioProcessorState where
  sample_rate : ℕ
  buffer_size : ℕ
  fft_size : ℕ
  gain : ℝ
  smoother : CavaFilter ℝ
  window : List ℝ
  audio_buffer : List ℝ
  fft_data : List ℝ
  stream : Option (Option ℕ × ℕ × ℕ)
  pa_instance : Option Unit
  device_index : Option ℕ
  is_running : Bool

/-- Model of AudioProcessor.__init__. -/
noncomputable def initState (sample_rate buffer_size fft_size : ℕ) : AudioProcessorState :=
  { sample_rate := sample_rate, buffer_size := buffer_size, fft_size := fft_size,
    gain := 60,
    smoother := CavaFilter.init (fft_size / 2) (7/10) (3/100),
    window := hannWindow buffer_size,
    audio_buffer := List.replicate buffer_size 0,
    fft_data := List.replicate (fft_size / 2) 0,
    stream := none, pa_instance := none, device_index := none, is_running := false }

/-- Fold one enumeration pass of find_loopback_candidates: append the index
of every device passing the test that is not already collected. -/
def addPass (devices : List DeviceInfo) (p : ℕ × DeviceInfo → Bool) (acc : List ℕ) : List ℕ :=
  devices.enum.foldl
    (fun acc pr => if p pr && !(acc.contains pr.1) then acc ++ [pr.1] else acc) acc

/-- Model of AudioProcessor.find_loopback_candidates: four ordered passes
collecting device indices without duplicates (WASAPI twin of the default
output or SyncMaster, stereo mix under MME, stereo mix anywhere, then broad
keywords).  A failing default-output query skips the first pass, as the
surrounding try does in the source. -/
def find_loopback_candidates (env : SdEnv) : List ℕ :=
  let pass1 :=
    match env.devices.get? env.defaultOutputIndex with
    | none => []
    | some dd =>
      addPass env.devices (fun pr =>
        strIn "Windows WASAPI" (hostName env pr.2.hostapi) &&
          (strIn dd.name pr.2.name || strIn "syncmaster" (lowerStr pr.2.name))) []
  let pass2 := addPass env.devices (fun pr =>
    strIn "stereo mix" (lowerStr pr.2.name) && strIn "MME" (hostName env pr.2.hostapi)) pass1
  let pass3 := addPass env.devices (fun pr => strIn "stereo mix" (lowerStr pr.2.name)) pass2
  addPass env.devices (fun pr =>
    ["mix", "loopback", "reverb", "monitor", "what u hear"].any
      (fun kw => strIn kw (lowerStr pr.2.name))) pass3

/-- Strip of leading and trailing whitespace, modelling str.strip(). -/
def trimChars (l : List Char) : List Char :=
  ((l.dropWhile Char.isWhitespace).reverse.dropWhile Char.isWhitespace).reverse

/-- Base name used by _find_mme_version: the part of the name before the
first opening parenthesis, stripped. -/
def baseName (s : String) : String :=
  String.mk (trimChars (s.data.takeWhile (fun c => c ≠ '(')))

/-- Model of AudioProcessor._find_mme_version: the first device under the
first host api named MME whose name contains the target's base name.  The
source defines this helper for a WASAPI-to-MME fallback but never calls
it. -/
def find_mme_version (env : SdEnv) (target_name : String) : Option ℕ :=
  match env.hostapis.findIdx? (fun h => h == "MME") with
  | none => none
  | some mme_idx =>
    (env.devices.enum.find? (fun pr =>
      pr.2.hostapi == mme_idx && strIn (baseName target_name) pr.2.name)).map (fun pr => pr.1)

/-- Device list of _start_sounddevice: an explicit device alone; otherwise
the loopback candidates when use_loopback is set; None (the default input)
when the list would be empty. -/
def deviceList (env : SdEnv) (device_index : Option ℕ) (use_loopback : Bool) : List (Option ℕ) :=
  let l : List (Option ℕ) :=
    match device_index with
    | some i => [some i]
    | none => if use_loopback then (find_loopback_candidates env).map some else []
  if l.isEmpty then [none] else l

/-- Attempts for one device entry: none when the device query fails (the
per-device except clause continues), otherwise each (channels, rate)
candidate tagged with the device. -/
def deviceAttempts (env : SdEnv) (dev : Option ℕ) : List (Option ℕ × ℕ × ℕ) :=
  match queryDevice env dev with
  | none => []
  | some info => (attemptsFor env info).map (fun p => (dev, p.1, p.2))

/-- Flattened ordered attempt list of _start_sounddevice. -/
def sdAttempts (env : SdEnv) (devs : List (Option ℕ)) : List (Option ℕ × ℕ × ℕ) :=
  (devs.map (deviceAttempts env)).flatten

/-- Model of AudioProcessor._start_sounddevice: probe every (device,
channels, rate) tuple in order; on the first success record the stream and
its configuration and set is_running, otherwise clear is_running. -/
def start_sounddevice (env : SdEnv) (st : AudioProcessorState)
    (device_index : Option ℕ) (use_loopback : Bool) : AudioProcessorState :=
  match (probeRun (fun a => env.openOk a.1 a.2.1 a.2.2)
      (sdAttempts env (deviceList env device_index use_loopback))).2 with
  | some a =>
    { st with stream := some a, sample_rate := a.2.2, device_index := a.1, is_running := true }
  | none => { st with is_running := false }

/-- Model of AudioProcessor.start: early return while running; otherwise the
PyAudioWPatch path (an oracle here) when available, loopback was requested
and no explicit device was given; otherwise the sounddevice fallback. -/
def start (env : SdEnv) (st : AudioProcessorState)
    (device_index : Option ℕ) (use_loopback : Bool) : AudioProcessorState :=
  if st.is_running then st
  else
    match (if env.hasPAW && use_loopback && device_index.isNone then env.pawStart else none) with
    | some (idx, chans, rate) =>
      { st with
        stream := some (some idx, chans, rate),
        pa_instance := some Unit.unit,
        sample_rate := rate,
        device_index := some idx,
        is_running := true }
    | none => start_sounddevice env st device_index use_loopback

/-- Model of AudioProcessor.stop: early return when not running; otherwise
release the stream and the PyAudio instance and clear is_running (the
close calls are wrapped in try/except in the source, so stop never
raises; the embedding is total accordingly). -/
def stop (st : AudioProcessorState) : AudioProcessorState :=
  if !st.is_running then st
  else { st with stream := none, pa_instance := none, is_running := false }

/-- Model of the try-block body of _audio_callback (total in the embedding):
downmix, activity, waveform gain and clip, FFT pipeline, smoothing, state
update, emitted frame. -/
noncomputable def conditionBody (st : AudioProcessorState) (indata : List (List ℝ)) :
    AudioProcessorState × (List ℝ × List ℝ × ℝ) :=
  let audio := indata.map downmixFrame
  let act := activity_level audio
  let buf := audioBufferOf st.gain audio
  let mag := fftPipeline st.gain st.fft_size audio st.window
  let r := st.smoother.update mag
  ({ st with audio_buffer := buf, fft_data := r.2, smoother := r.1 }, (buf, r.2, act))

/-- Model of the control flow of _audio_callback: an input-overflow status
returns before any processing (block skipped, previous frame kept); a body
that raises is caught at the callback boundary where the except clause only
logs, so nothing is emitted and no exception escapes; otherwise the body's
state update is committed and the frame emitted. -/
def audio_callback (body : Except String (AudioProcessorState × (List ℝ × List ℝ × ℝ)))
    (overflow : Bool) (st : AudioProcessorState) :
    AudioProcessorState × Option (List ℝ × List ℝ × ℝ) :=
  if overflow then (st, none)
  else
    match body with
    | Except.error _ => (st, none)
    | Except.ok (st2, frame) => (st2, some frame)

/-- The callback as executed with the actual conditioning body, which never
raises in the exact-arithmetic embedding. -/
noncomputable def audioCallbackRun (st : AudioProcessorState) (indata : List (List ℝ))
    (overflow : Bool) : AudioProcessorState × Option (List ℝ × List ℝ × ℝ) :=
  audio_callback (Except.ok (conditionBody st indata)) overflow st

end Lifecycle

section MoreHelpers

/-- Membership in zipWith comes from members of both lists. -/
theorem mem_of_zipWith {A B C : Type} (f : A → B → C) :
    ∀ (l1 : List A) (l2 : List B) (e : C), e ∈ List.zipWith f l1 l2 →
      ∃ a, a ∈ l1 ∧ ∃ b, b ∈ l2 ∧ e = f a b
  | a :: l1, b :: l2, e, h => by
    rcases List.mem_cons.mp h with h | h
    · exact ⟨a, by simp, b, by simp, h⟩
    · obtain ⟨x, hx, y, hy, he⟩ := mem_of_zipWith f l1 l2 e h
      exact ⟨x, by simp [hx], y, by simp [hy], he⟩
  | [], _, e, h => by simp at h
  | _ :: _, [], e, h => by simp at h

/-- Membership after List.set is the new value or an original member. -/
theorem mem_of_set {A : Type} :
    ∀ (l : List A) (i : ℕ) (x e : A), e ∈ l.set i x → e = x ∨ e ∈ l
  | [], _, _, e, h => by simp at h
  | a :: t, 0, x, e, h => by
    rcases List.mem_cons.mp h with h | h
    · exact Or.inl h
    · exact Or.inr (by simp [h])
  | a :: t, Nat.succ i, x, e, h => by
    rcases List.mem_cons.mp h with h | h
    · exact Or.inr (by simp [h])
    · rcases mem_of_set t i x e h with h | h
      · exact Or.inl h
      · exact Or.inr (by simp [h])

/-- Element access into an all-z list yields z at every index. -/
theorem getD_zero_of_all {A : Type} (z : A) :
    ∀ (l : List A), (∀ e ∈ l, e = z) → ∀ j, l.getD j z = z
  | [], _, j => by simp
  | a :: t, h, 0 => h a (by simp)
  | a :: t, h, Nat.succ j => getD_zero_of_all z t (fun e he => h e (by simp [he])) j

end MoreHelpers

section LifecycleTheorems

/-- C9: start is a no-op while capture is already running, stop is a no-op
while capture is stopped, and a freshly initialised (never-started)
processor is not running, so stop leaves it unchanged; stop is total in the
embedding just as the source wraps its teardown in try/except, so it cannot
throw. -/
theorem c9_lifecycle_idempotent (env : SdEnv) (st : AudioProcessorState)
    (dev : Option ℕ) (ul : Bool) :
    (st.is_running = true → start env st dev ul = st) ∧
    (st.is_running = false → stop st = st) ∧
    (∀ sr bs fs, (initState sr bs fs).is_running = false ∧
      stop (initState sr bs fs) = initState sr bs fs) := by
  refine ⟨?_, ?_, fun sr bs fs => ⟨rfl, rfl⟩⟩
  · intro h
    simp [start, h]
  · intro h
    simp [stop, h]

/-- Witness for C9: a running processor is unchanged by start and a fresh
processor is unchanged by stop. -/
theorem c9_lifecycle_idempotent_witness :
    (start (SdEnv.mk [] [] 0 none (fun _ _ _ => false) false none)
        { initState 44100 2048 2048 with is_running := true } none true
      = { initState 44100 2048 2048 with is_running := true }) ∧
    (stop (initState 44100 2048 2048) = initState 44100 2048 2048) :=
  ⟨(c9_lifecycle_idempotent (SdEnv.mk [] [] 0 none (fun _ _ _ => false) false none)
      { initState 44100 2048 2048 with is_running := true } none true).1 rfl,
   (c9_lifecycle_idempotent (SdEnv.mk [] [] 0 none (fun _ _ _ => false) false none)
      (initState 44100 2048 2048) none true).2.1 rfl⟩

/-- C4: an input-overflow status makes the callback skip the block entirely
(state unchanged, previous frame kept, nothing emitted); a conditioning body
that raises is caught at the callback boundary, emitting nothing and leaving
the state with the caller; and the actual conditioning run never changes
is_running or the stream, so the callback never tears down capture. -/
theorem c4_callback_containment (st : AudioProcessorState) (indata : List (List ℝ))
    (overflow : Bool) (body : Except String (AudioProcessorState × (List ℝ × List ℝ × ℝ)))
    (e : String) :
    (audio_callback body true st = (st, none)) ∧
    (audio_callback (Except.error e) overflow st = (st, none)) ∧
    ((audioCallbackRun st indata overflow).1.is_running = st.is_running) ∧
    ((audioCallbackRun st indata overflow).1.stream = st.stream) := by
  refine ⟨rfl, ?_, ?_, ?_⟩
  · cases overflow <;> rfl
  · cases overflow <;> rfl
  · cases overflow <;> rfl

/-- Environment of the C1 scenario: a WASAPI render endpoint (the loopback
candidate) and its MME twin sharing the base name, with every stream-open
attempt failing. -/
def c1Env : SdEnv :=
  SdEnv.mk ["Windows WASAPI", "MME"]
    [DeviceInfo.mk "Speakers (Realtek Audio)" 0 0 2 48000,
     DeviceInfo.mk "Speakers (Realtek Audio)" 1 2 2 44100]
    0 none (fun _ _ _ => false) false none

/-- C1: when every (channels, rate) tuple fails for the only WASAPI loopback
candidate, the negotiator reports failure without ever probing the MME twin:
all four attempts target device 0 and negotiation ends with no success,
although _find_mme_version, which the source never calls, would have found
the twin at index 1.  The spec's once-only MME retry is therefore dead
code. -/
theorem c1_mme_retry_missing :
    ((start_sounddevice c1Env (initState 44100 2048 2048) none true).is_running = false) ∧
    ((probeRun (fun a => c1Env.openOk a.1 a.2.1 a.2.2)
        (sdAttempts c1Env (deviceList c1Env none true))).2 = none) ∧
    ((probeRun (fun a => c1Env.openOk a.1 a.2.1 a.2.2)
        (sdAttempts c1Env (deviceList c1Env none true))).1.map (fun a => a.1)
      = [some 0, some 0, some 0, some 0]) ∧
    (find_mme_version c1Env "Speakers (Realtek Audio)" = some 1) :=
  ⟨rfl, rfl, rfl, rfl⟩

end LifecycleTheorems

section DownmixTheorems

variable {α : Type} [LinearOrderedField α]

/-- Summation commutes with dividing every entry by a constant. -/
theorem sum_map_div (l : List α) (b : α) :
    (l.map (fun x => x / b)).sum = l.sum / b := by
  induction l with
  | nil => simp
  | cons a t ih => simp [ih, add_div]

/-- Entries of the raw downmix weights are positive. -/
theorem downmixWeightsRaw_pos (c : ℕ) :
    ∀ w ∈ (downmixWeightsRaw c : List α), 0 < w := by
  intro w hw
  obtain ⟨i, _, rfl⟩ := List.mem_map.mp hw
  split_ifs <;> norm_num

/-- Length of the raw downmix weights. -/
theorem downmixWeightsRaw_length (c : ℕ) : (downmixWeightsRaw c : List α).length = c := by
  simp [downmixWeightsRaw]

/-- Sum of the raw downmix weights is positive when a channel exists. -/
theorem downmixWeightsRaw_sum_pos (c : ℕ) (hc : 0 < c) :
    0 < ((downmixWeightsRaw c : List α)).sum := by
  refine List.sum_pos _ (downmixWeightsRaw_pos c) ?_
  intro h
  have hlen := congrArg List.length h
  rw [downmixWeightsRaw_length] at hlen
  simp at hlen
  omega

/-- Value of the raw downmix weights at an in-range index. -/
theorem downmixWeightsRaw_getD (c i : ℕ) (hi : i < c) :
    (downmixWeightsRaw c : List α).getD i 0 =
      (if 3 ≤ c ∧ i = 2 then 7/10 else if 6 ≤ c ∧ (i = 4 ∨ i = 5) then 7/10 else 1) := by
  unfold downmixWeightsRaw
  rw [getD_of_map _ 0 _ _ i (by simpa using hi)]
  have hr : (List.range c).getD i 0 = i := by
    rw [List.getD_eq_getElem _ _ (by simpa using hi)]
    exact List.getElem_range _ _
  rw [hr]

/-- C6 counterexample: a six-channel frame of all ones downmixes to 2, not
to the 1 any weighted average would give (the weights are normalised to
total 2), and the centre-channel weight is strictly below the front-left
weight, so the centre is de-emphasised rather than emphasised. -/
theorem c6_counterexample :
    downmixFrame (List.replicate 6 (1 : ℚ)) = 2 ∧
    ((downmixWeights 6 : List ℚ).getD 2 0 < (downmixWeights 6 : List ℚ).getD 0 0) := by
  constructor
  · norm_num [downmixFrame, dotList, downmixWeights, downmixWeightsRaw, List.range_succ,
      List.replicate_succ]
  · norm_num [downmixWeights, downmixWeightsRaw, List.range_succ]

/-- C6 (amended): stereo downmix is the exact mean of the two channels; for
three or more channels the downmix is the weighted dot product with weights
normalised to total 2 (twice a weighted average), and the centre channel
(index 2) carries 0.7 of the front-left weight, de-emphasised relative to
the front channels. -/
theorem c6_downmix_weighted_sum (a b : α) (frame : List α) (c : ℕ)
    (h3 : 3 ≤ frame.length) (hc : 3 ≤ c) :
    (downmixFrame [a, b] = (a + b) / 2) ∧
    (downmixFrame frame = dotList frame (downmixWeights frame.length)) ∧
    ((downmixWeights c : List α).sum = 2) ∧
    ((downmixWeights c : List α).getD 2 0
      = (7/10) * ((downmixWeights c : List α).getD 0 0)) ∧
    (6 ≤ c →
      ((downmixWeights c : List α).getD 4 0
        = (7/10) * ((downmixWeights c : List α).getD 0 0)) ∧
      ((downmixWeights c : List α).getD 5 0
        = (7/10) * ((downmixWeights c : List α).getD 0 0))) := by
  refine ⟨?_, ?_, ?_, ?_, ?_⟩
  · rw [downmixFrame, if_pos (show ([a, b] : List α).length = 2 from rfl)]
    show (a + b) * (1/2) = (a + b) / 2
    ring
  · rw [downmixFrame, if_neg (by omega), if_neg (by omega)]
  · unfold downmixWeights
    rw [sum_map_div]
    have hS := downmixWeightsRaw_sum_pos (α := α) c (by omega)
    rw [div_div_eq_mul_div, mul_comm, mul_div_assoc, div_self (ne_of_gt hS), mul_one]
  · unfold downmixWeights
    rw [getD_of_map _ 0 _ _ 2 (by rw [downmixWeightsRaw_length]; omega),
        getD_of_map _ 0 _ _ 0 (by rw [downmixWeightsRaw_length]; omega),
        downmixWeightsRaw_getD c 2 (by omega), downmixWeightsRaw_getD c 0 (by omega),
        if_pos ⟨hc, rfl⟩, if_neg (by simp), if_neg (by simp)]
    rw [div_eq_mul_one_div]
  · intro h6
    constructor
    · unfold downmixWeights
      rw [getD_of_map _ 0 _ _ 4 (by rw [downmixWeightsRaw_length]; omega),
          getD_of_map _ 0 _ _ 0 (by rw [downmixWeightsRaw_length]; omega),
          downmixWeightsRaw_getD c 4 (by omega), downmixWeightsRaw_getD c 0 (by omega),
          if_neg (by simp), if_pos ⟨h6, Or.inl rfl⟩, if_neg (by simp), if_neg (by simp)]
      rw [div_eq_mul_one_div]
    · unfold downmixWeights
      rw [getD_of_map _ 0 _ _ 5 (by rw [downmixWeightsRaw_length]; omega),
          getD_of_map _ 0 _ _ 0 (by rw [downmixWeightsRaw_length]; omega),
          downmixWeightsRaw_getD c 5 (by omega), downmixWeightsRaw_getD c 0 (by omega),
          if_neg (by simp), if_pos ⟨h6, Or.inr rfl⟩, if_neg (by simp), if_neg (by simp)]
      rw [div_eq_mul_one_div]

/-- Witness for C6 (amended): weights of a three-channel downmix sum to 2,
and in a six-channel downmix the first surround channel (index 4) carries
0.7 of the front-left weight. -/
theorem c6_downmix_weighted_sum_witness :
    ((downmixWeights 3 : List ℚ).sum = 2) ∧
    ((downmixWeights 6 : List ℚ).getD 4 0
      = (7/10) * ((downmixWeights 6 : List ℚ).getD 0 0)) :=
  ⟨(c6_downmix_weighted_sum (0 : ℚ) 0 [0, 0, 1] 3 (by simp) (by simp)).2.2.1,
   ((c6_downmix_weighted_sum (0 : ℚ) 0 [0, 0, 1] 6 (by simp) (by simp)).2.2.2.2
      (by simp)).1⟩

end DownmixTheorems

section SilenceTheorems

/-- Downmixing an all-zero frame yields zero in every channel-count case. -/
theorem downmixFrame_zero (frame : List ℝ) (hz : ∀ x ∈ frame, x = 0) :
    downmixFrame frame = 0 := by
  unfold downmixFrame
  split
  · rw [getD_zero_of_all 0 frame hz 0, getD_zero_of_all 0 frame hz 1]
    ring
  · split
    · exact getD_zero_of_all 0 frame hz 0
    · unfold dotList
      refine List.sum_eq_zero ?_
      intro e he
      obtain ⟨x, hx, y, hy, rfl⟩ := mem_of_zipWith _ _ _ e he
      rw [hz x hx, zero_mul]

/-- C5: an all-zero audio block produces an activity level of exactly 0 and
a magnitude spectrum of all zeros after gating, FFT normalisation, DC
removal, log compression, user gain and clipping (before smoothing) --
silence never produces phantom spectral energy. -/
theorem c5_silence (indata : List (List ℝ)) (gain : ℝ) (fftSize : ℕ) (window : List ℝ)
    (hz : ∀ row ∈ indata, ∀ x ∈ row, x = 0) (hne : indata ≠ []) :
    activity_level (indata.map downmixFrame) = 0 ∧
    ∀ e ∈ fftPipeline gain fftSize (indata.map downmixFrame) window, e = 0 := by
  have haudio : ∀ e ∈ indata.map downmixFrame, e = (0 : ℝ) := by
    intro e he
    obtain ⟨row, hrow, rfl⟩ := List.mem_map.mp he
    exact downmixFrame_zero row (hz row hrow)
  constructor
  · unfold activity_level
    have hsum : ((indata.map downmixFrame).map
        (fun x => max 0 (|x| - NOISE_FLOOR) ^ 2)).sum = 0 := by
      refine List.sum_eq_zero ?_
      intro t ht
      obtain ⟨x, hx, rfl⟩ := List.mem_map.mp ht
      rw [haudio x hx, abs_zero, zero_sub,
        max_eq_left (by norm_num [NOISE_FLOOR])]
      exact zero_pow (by norm_num)
    rw [hsum, zero_div, Real.sqrt_zero]
  · have hwin : ∀ j, (List.zipWith (· * ·) (indata.map downmixFrame) window).getD j 0 = 0 := by
      intro j
      refine getD_zero_of_all 0 _ ?_ j
      intro e he
      obtain ⟨x, hx, y, hy, rfl⟩ := mem_of_zipWith _ _ _ e he
      rw [haudio x hx, zero_mul]
    have hbin : ∀ k,
        rfftBin (List.zipWith (· * ·) (indata.map downmixFrame) window) fftSize k = 0 := by
      intro k
      unfold rfftBin
      refine Finset.sum_eq_zero ?_
      intro j hj
      rw [hwin j]
      simp
    have hmagraw : ∀ e ∈ fftMagnitudeRaw
        (List.zipWith (· * ·) (indata.map downmixFrame) window) fftSize, e = (0 : ℝ) := by
      intro e he
      obtain ⟨k, hk, rfl⟩ := List.mem_map.mp he
      rw [hbin k]
      simp
    intro e he
    unfold fftPipeline userGainClip at he
    obtain ⟨m, hm, rfl⟩ := List.mem_map.mp he
    unfold logCompress at hm
    obtain ⟨m2, hm2, rfl⟩ := List.mem_map.mp hm
    unfold removeDC at hm2
    have hm2z : m2 = 0 := by
      rcases mem_of_set _ _ _ _ hm2 with h | h
      · exact h
      · rcases mem_of_set _ _ _ _ h with h | h
        · exact h
        · exact hmagraw m2 h
    rw [hm2z, add_zero, Real.log_one, zero_mul, zero_mul,
      min_eq_right (zero_le_one), max_self]

/-- Witness for C5 at a concrete stereo block of zeros. -/
theorem c5_silence_witness :
    activity_level (([[(0 : ℝ), 0]]).map downmixFrame) = 0 :=
  (c5_silence [[0, 0]] 60 4 [1] (by simp) (by simp)).1

end SilenceTheorems

section UnitIntervalTheorems

/-- CavaFilter.update maps unit-interval state and input to unit-interval
output and state, for integral weight in [0, 1] and non-negative gravity. -/
theorem cava_update_bounds (st : CavaFilter ℝ) (x : List ℝ)
    (hw0 : 0 ≤ st.integral_weight) (hw1 : st.integral_weight ≤ 1) (hg : 0 ≤ st.gravity)
    (hprev : ∀ e ∈ st.prev_values, 0 ≤ e ∧ e ≤ 1)
    (hinteg : ∀ e ∈ st.integral_buffer, 0 ≤ e ∧ e ≤ 1)
    (hx : ∀ e ∈ x, 0 ≤ e ∧ e ≤ 1) :
    (∀ e ∈ (st.update x).2, 0 ≤ e ∧ e ≤ 1) ∧
    (∀ e ∈ (st.update x).1.prev_values, 0 ≤ e ∧ e ≤ 1) ∧
    (∀ e ∈ (st.update x).1.integral_buffer, 0 ≤ e ∧ e ≤ 1) := by
  have hprevB : ∀ e ∈ (if x.length = st.prev_values.length then st.prev_values
      else List.replicate x.length (0 : ℝ)), 0 ≤ e ∧ e ≤ 1 := by
    split
    · exact hprev
    · intro e he
      rw [List.eq_of_mem_replicate he]
      norm_num
  have hintegB : ∀ e ∈ (if x.length = st.prev_values.length then st.integral_buffer
      else List.replicate x.length (0 : ℝ)), 0 ≤ e ∧ e ≤ 1 := by
    split
    · exact hinteg
    · intro e he
      rw [List.eq_of_mem_replicate he]
      norm_num
  have hint2 : ∀ e ∈ List.zipWith
      (fun v i => v * (1 - st.integral_weight) + i * st.integral_weight) x
      (if x.length = st.prev_values.length then st.integral_buffer
       else List.replicate x.length (0 : ℝ)), 0 ≤ e ∧ e ≤ 1 := by
    intro e he
    obtain ⟨v, hv, j, hj, rfl⟩ := mem_of_zipWith _ _ _ e he
    obtain ⟨hv0, hv1⟩ := hx v hv
    obtain ⟨hj0, hj1⟩ := hintegB j hj
    constructor
    · have h1 : 0 ≤ v * (1 - st.integral_weight) :=
        mul_nonneg hv0 (by linarith)
      have h2 : 0 ≤ j * st.integral_weight := mul_nonneg hj0 hw0
      linarith
    · have h1 : v * (1 - st.integral_weight) ≤ 1 * (1 - st.integral_weight) :=
        mul_le_mul_of_nonneg_right hv1 (by linarith)
      have h2 : j * st.integral_weight ≤ 1 * st.integral_weight :=
        mul_le_mul_of_nonneg_right hj1 hw0
      have := add_le_add h1 h2
      linarith
  have hout : ∀ e ∈ ((List.zipWith
      (fun i p => if i < p - st.gravity then p - st.gravity else i)
      (List.zipWith (fun v i => v * (1 - st.integral_weight) + i * st.integral_weight) x
        (if x.length = st.prev_values.length then st.integral_buffer
         else List.replicate x.length (0 : ℝ)))
      (if x.length = st.prev_values.length then st.prev_values
       else List.replicate x.length (0 : ℝ))).map (fun y => max 0 y)), 0 ≤ e ∧ e ≤ 1 := by
    intro e he
    obtain ⟨y, hy, rfl⟩ := List.mem_map.mp he
    obtain ⟨i2, hi2, p, hp, rfl⟩ := mem_of_zipWith _ _ _ y hy
    obtain ⟨hi0, hi1⟩ := hint2 i2 hi2
    obtain ⟨hp0, hp1⟩ := hprevB p hp
    refine ⟨le_max_left _ _, ?_⟩
    refine max_le zero_le_one ?_
    split
    · linarith
    · exact hi1
  exact ⟨hout, hout, hint2⟩

/-- SmoothingBuffer.update maps unit-interval state and input to
unit-interval output, for smoothing in [0, 1]. -/
theorem sb_update_bounds (sb : SmoothingBuffer ℝ) (x : List ℝ)
    (hs0 : 0 ≤ sb.smoothing) (hs1 : sb.smoothing ≤ 1)
    (hbuf : ∀ e ∈ sb.buffer, 0 ≤ e ∧ e ≤ 1)
    (hx : ∀ e ∈ x, 0 ≤ e ∧ e ≤ 1) :
    ∀ e ∈ (sb.update x).2, 0 ≤ e ∧ e ≤ 1 := by
  have hbufB : ∀ e ∈ (if x.length = sb.buffer.length then sb.buffer
      else List.replicate x.length (0 : ℝ)), 0 ≤ e ∧ e ≤ 1 := by
    split
    · exact hbuf
    · intro e he
      rw [List.eq_of_mem_replicate he]
      norm_num
  intro e he
  obtain ⟨b, hb, v, hv, rfl⟩ := mem_of_zipWith _ _ _ e he
  obtain ⟨hb0, hb1⟩ := hbufB b hb
  obtain ⟨hv0, hv1⟩ := hx v hv
  constructor
  · have h1 : 0 ≤ b * sb.smoothing := mul_nonneg hb0 hs0
    have h2 : 0 ≤ v * (1 - sb.smoothing) := mul_nonneg hv0 (by linarith)
    linarith
  · have h1 : b * sb.smoothing ≤ 1 * sb.smoothing :=
      mul_le_mul_of_nonneg_right hb1 hs0
    have h2 : v * (1 - sb.smoothing) ≤ 1 * (1 - sb.smoothing) :=
      mul_le_mul_of_nonneg_right hv1 (by linarith)
    have := add_le_add h1 h2
    linarith

/-- C10: the conditioner clips every spectrum entry into [0, 1] before
smoothing; the frame the callback delivers keeps every entry in [0, 1]
whenever the gravity filter's state lies in [0, 1] with weight in [0, 1]
and non-negative gravity (and the new filter state stays in [0, 1], so the
invariant is inductive from the all-zero initial state); the exponential
filter preserves the same invariant. -/
theorem c10_unit_interval_invariant (st : AudioProcessorState) (indata : List (List ℝ))
    (overflow : Bool)
    (hw0 : 0 ≤ st.smoother.integral_weight) (hw1 : st.smoother.integral_weight ≤ 1)
    (hg : 0 ≤ st.smoother.gravity)
    (hprev : ∀ e ∈ st.smoother.prev_values, 0 ≤ e ∧ e ≤ 1)
    (hinteg : ∀ e ∈ st.smoother.integral_buffer, 0 ≤ e ∧ e ≤ 1) :
    (∀ (gain : ℝ) (fs : ℕ) (l window : List ℝ),
      ∀ e ∈ fftPipeline gain fs l window, 0 ≤ e ∧ e ≤ 1) ∧
    (∀ frame, (audioCallbackRun st indata overflow).2 = some frame →
      ∀ e ∈ frame.2.1, 0 ≤ e ∧ e ≤ 1) ∧
    (∀ e ∈ (audioCallbackRun st indata overflow).1.smoother.prev_values, 0 ≤ e ∧ e ≤ 1) ∧
    (∀ e ∈ (audioCallbackRun st indata overflow).1.smoother.integral_buffer, 0 ≤ e ∧ e ≤ 1) ∧
    (∀ (sb : SmoothingBuffer ℝ) (x : List ℝ), 0 ≤ sb.smoothing → sb.smoothing ≤ 1 →
      (∀ e ∈ sb.buffer, 0 ≤ e ∧ e ≤ 1) → (∀ e ∈ x, 0 ≤ e ∧ e ≤ 1) →
      ∀ e ∈ (sb.update x).2, 0 ≤ e ∧ e ≤ 1) := by
  have hclip : ∀ (gain : ℝ) (fs : ℕ) (l window : List ℝ),
      ∀ e ∈ fftPipeline gain fs l window, 0 ≤ e ∧ e ≤ 1 := by
    intro gain fs l window e he
    unfold fftPipeline userGainClip at he
    obtain ⟨m, hm, rfl⟩ := List.mem_map.mp he
    exact ⟨le_max_left _ _, max_le zero_le_one (min_le_left _ _)⟩
  have hmag := hclip st.gain st.fft_size (indata.map downmixFrame) st.window
  have hcava := cava_update_bounds st.smoother
    (fftPipeline st.gain st.fft_size (indata.map downmixFrame) st.window)
    hw0 hw1 hg hprev hinteg hmag
  refine ⟨hclip, ?_, ?_, ?_, sb_update_bounds⟩
  · intro frame hframe
    cases overflow with
    | true => exact absurd hframe (by simp [audioCallbackRun, audio_callback])
    | false =>
      have : frame = ((conditionBody st indata).2) := by
        simpa [audioCallbackRun, audio_callback] using hframe.symm
      rw [this]
      exact hcava.1
  · cases overflow with
    | true => exact hprev
    | false => exact hcava.2.1
  · cases overflow with
    | true => exact hinteg
    | false => exact hcava.2.2

/-- Witness for C10 on a concrete processor state: the entry 1 of the
filter state survives an overflow-skipped callback inside [0, 1]. -/
theorem c10_unit_interval_invariant_witness :
    ((1 : ℝ) ∈ (audioCallbackRun (AudioProcessorState.mk 44100 2048 2048 60
        (CavaFilter.mk 1 0 [1] []) [] [] [] none none none false)
        [] true).1.smoother.prev_values) ∧
    (0 ≤ (1 : ℝ) ∧ (1 : ℝ) ≤ 1) :=
  ⟨by simp [audioCallbackRun, audio_callback],
   (c10_unit_interval_invariant (AudioProcessorState.mk 44100 2048 2048 60
        (CavaFilter.mk 1 0 [1] []) [] [] [] none none none false) [] true
      (by simp) (by simp) (by simp) (by simp) (by simp)).2.2.1 1
      (by simp [audioCallbackRun, audio_callback])⟩

end UnitIntervalTheorems

end EchoPy
